import Mathlib

/-!
Verification development for the `ChessEngine` session controller of
chess.js-extended (`index.ts`, bundled in `build.mjs`).

The engine controller drives an external Stockfish worker over the UCI line
protocol.  This file gives a shallow embedding of that controller:

* JS string primitives used by the code (`trim`, `split(/\s+/)`,
  `split(" ")`, `parseInt`) are modelled on `List Char` with JS semantics
  (in particular `"".split(/\s+/)` is `[""]`).
* the regular expression `/multipv\s+(\d+).*score (cp|mate) (-?\d+).*pv\s+(.+)/`
  is modelled by a small backtracking matcher with JS preference order
  (leftmost start, alternation left first, greedy quantifiers longest first);
* the controller state (`mode`, worker handle, blob URL, ready flag,
  accumulated `analysisLines`) is an explicit record, and each method becomes a
  function from state to state paired with a list of observable effects
  (posted commands, worker creation/termination, URL revocation, emitted
  `analysis` events, console warnings);
* the external rules engine (chess.js, a dependency outside this
  repository) is abstracted as a `Rules` structure: `new` constructs a board
  from a FEN string and `move` either returns the SAN text plus the next
  board, or `none` for moves on which chess.js `move()` throws.
-/

/-! ### JS string primitives -/

/-- Whitespace for the purposes of the JS `\s` class and `String.prototype.trim`
(restricted to the characters that can actually occur in engine output). -/
def isWsChar (c : Char) : Bool :=
  c = ' ' || c = '\t' || c = '\n' || c = '\r'

/-- JS `String.prototype.trim`: drop whitespace from both ends. -/
def trimWs (cs : List Char) : List Char :=
  ((cs.dropWhile isWsChar).reverse.dropWhile isWsChar).reverse

/-- One step of `jsSplitWs`: the accumulator is
(finished fields, reversed; current field, reversed; currently inside a
whitespace run).  A whitespace character outside a run closes the current
field; further whitespace of the same run is skipped. -/
def jsSplitWsStep (p : List (List Char) × List Char × Bool) (c : Char) :
    List (List Char) × List Char × Bool :=
  if isWsChar c then
    if p.2.2 then p else (p.2.1.reverse :: p.1, [], true)
  else (p.1, c :: p.2.1, false)

/-- JS `String.prototype.split(/\s+/)`: fields delimited by maximal
whitespace runs.  A leading (resp. trailing) run yields a leading (resp.
trailing) empty field, and `"".split(/\s+/)` is `[""]` — the JS behaviour on
which the `pvLine.length > 0` guard in the source silently depends. -/
def jsSplitWs (cs : List Char) : List (List Char) :=
  let st := cs.foldl jsSplitWsStep ([], [], false)
  (st.2.1.reverse :: st.1).reverse

/-- Worker for `jsSplitChar`. -/
def jsSplitCharGo (sep : Char) (acc : List Char) : List Char → List (List Char)
  | [] => [acc.reverse]
  | c :: rest =>
    if c = sep then acc.reverse :: jsSplitCharGo sep [] rest
    else jsSplitCharGo sep (c :: acc) rest

/-- JS `String.prototype.split(sep)` for a one-character separator string
(used by the source as `this.fen().split(" ")`). -/
def jsSplitChar (sep : Char) (cs : List Char) : List (List Char) :=
  jsSplitCharGo sep [] cs

/-- JS `s.startsWith(pre)`. -/
def jsStartsWith (s pre : String) : Bool :=
  pre.toList.isPrefixOf s.toList

/-- Numeric value of a digit string. -/
def digitsVal (cs : List Char) : Nat :=
  cs.foldl (fun a c => a * 10 + (c.toNat - '0'.toNat)) 0

/-- JS `parseInt(s, 10)` restricted to the shapes the info-line pattern can
capture: an optional leading minus sign followed by decimal digits. -/
def parseIntJs (cs : List Char) : Int :=
  match cs with
  | '-' :: rest => -(digitsVal rest : Int)
  | _ => (digitsVal cs : Int)

/-! ### A backtracking matcher for the ranked-info pattern

The source parses engine output with
`message.match(/multipv\s+(\d+).*score (cp|mate) (-?\d+).*pv\s+(.+)/)`.
The AST below has exactly the constructs that pattern needs; the matcher
follows the JS backtracking preference order: starting positions are tried
left to right, alternation tries its left arm first, and greedy quantifiers
try the longest consumption first. -/

/-- Single-character classes appearing in the pattern: `.` (any character
except newline), `\d` and `\s`. -/
inductive CC
  | dot
  | digit
  | ws
deriving DecidableEq, Repr

def ccMatch : CC → Char → Bool
  | CC.dot, c => c ≠ '\n'
  | CC.digit, c => c.isDigit
  | CC.ws, c => isWsChar c

/-- Regular expression AST.  Quantifiers are restricted to character classes,
which is all the source pattern uses and keeps the matcher structurally
recursive. -/
inductive RE
  | eps
  | lit (cs : List Char)
  | cat (a b : RE)
  | alt (a b : RE)
  | starCC (cc : CC)
  | plusCC (cc : CC)
  | optChr (c : Char)
  | grp (i : Nat) (a : RE)
deriving Repr

/-- Capture groups 1–4 of a match. -/
structure Caps where
  g1 : Option (List Char)
  g2 : Option (List Char)
  g3 : Option (List Char)
  g4 : Option (List Char)
deriving DecidableEq, Repr

def initCaps : Caps := ⟨none, none, none, none⟩

def setCap (cp : Caps) (i : Nat) (v : List Char) : Caps :=
  match i with
  | 1 => { cp with g1 := some v }
  | 2 => { cp with g2 := some v }
  | 3 => { cp with g3 := some v }
  | 4 => { cp with g4 := some v }
  | _ => cp

/-- First defined element of a list of alternatives (backtracking order). -/
def firstSome {α : Type} : List (Option α) → Option α
  | [] => none
  | some a :: _ => some a
  | none :: rest => firstSome rest

/-- All remainders a greedy class quantifier can leave, longest consumption
first: if the maximal run of `cc`-characters has length `m`, the candidates
are `s.drop m`, `s.drop (m-1)`, …, `s.drop 0`. -/
def ccRunSplits (cc : CC) (s : List Char) : List (List Char) :=
  let m := (s.takeWhile (ccMatch cc)).length
  (List.range (m + 1)).map (fun j => s.drop (m - j))

/-- Backtracking matcher in continuation style.  `k` receives the remaining
input and the captures accumulated so far; the first continuation success in
preference order wins, mirroring the JS engine. -/
def matchRE : RE → List Char → Caps → (List Char → Caps → Option Caps) → Option Caps
  | RE.eps, s, cp, k => k s cp
  | RE.lit l, s, cp, k =>
    if l.isPrefixOf s then k (s.drop l.length) cp else none
  | RE.cat a b, s, cp, k =>
    matchRE a s cp (fun s2 cp2 => matchRE b s2 cp2 k)
  | RE.alt a b, s, cp, k =>
    (matchRE a s cp k).orElse (fun _ => matchRE b s cp k)
  | RE.starCC cc, s, cp, k =>
    firstSome ((ccRunSplits cc s).map (fun s2 => k s2 cp))
  | RE.plusCC cc, s, cp, k =>
    match s with
    | [] => none
    | c :: rest =>
      if ccMatch cc c then
        firstSome ((ccRunSplits cc rest).map (fun s2 => k s2 cp))
      else none
  | RE.optChr c, s, cp, k =>
    match s with
    | [] => k s cp
    | d :: rest => if d = c then (k rest cp).orElse (fun _ => k s cp) else k s cp
  | RE.grp i a, s, cp, k =>
    matchRE a s cp (fun s2 cp2 => k s2 (setCap cp2 i (s.take (s.length - s2.length))))

/-- Unanchored match: try each starting position left to right (JS
`String.prototype.match` without the `g` flag returns the leftmost match). -/
def matchFrom (re : RE) : List Char → Option Caps
  | [] => matchRE re [] initCaps (fun _ cp => some cp)
  | c :: rest =>
    match matchRE re (c :: rest) initCaps (fun _ cp => some cp) with
    | some cp => some cp
    | none => matchFrom re rest

/-- Chain a list of regular expressions in sequence. -/
def reSeq (l : List RE) : RE := l.foldr RE.cat RE.eps

/-- The ranked-info pattern
`/multipv\s+(\d+).*score (cp|mate) (-?\d+).*pv\s+(.+)/`. -/
def infoPattern : RE := reSeq [
  RE.lit "multipv".toList,
  RE.plusCC CC.ws,
  RE.grp 1 (RE.plusCC CC.digit),
  RE.starCC CC.dot,
  RE.lit "score ".toList,
  RE.grp 2 (RE.alt (RE.lit "cp".toList) (RE.lit "mate".toList)),
  RE.lit " ".toList,
  RE.grp 3 (RE.cat (RE.optChr '-') (RE.plusCC CC.digit)),
  RE.starCC CC.dot,
  RE.lit "pv".toList,
  RE.plusCC CC.ws,
  RE.grp 4 (RE.plusCC CC.dot)
]

/-- Result of `message.match(infoPattern)`: the four capture groups
(rank, score type, score, pv tail) when the message matches. -/
def matchInfo (msg : String) : Option (List Char × List Char × List Char × List Char) :=
  match matchFrom infoPattern msg.toList with
  | none => none
  | some cp => some (cp.g1.getD [], cp.g2.getD [], cp.g3.getD [], cp.g4.getD [])

/-! ### Data model -/

/-- An evaluation as stored by the controller: a number (`number` in TS,
modelled exactly as a rational since the source divides integers by 100) or a
mate tag string such as `"M3"` / `"M-1"`. -/
inductive EvalValue
  | num (q : ℚ)
  | str (s : String)
deriving DecidableEq, Repr

/-- One accumulated analysis line (`AnalysisLine` in the source). -/
structure AnalysisLine where
  evaluation : EvalValue
  line : List String
deriving DecidableEq, Repr

/-- `type EngineMode = "idle" | "evaluate" | "stream"`. -/
inductive EngineMode
  | idle
  | evaluate
  | stream
deriving DecidableEq, Repr

/-- `StockfishOptions`.  All numeric fields are JS numbers, modelled as
integers; `none` models an absent (`undefined`) field. -/
structure StockfishOptions where
  depth : Option Int := none
  time : Option Int := none
  movetime : Option Int := none
  nodes : Option Int := none
  stockfishUrl : Option String := none
  multiPV : Option Int := none
  skillLevel : Option Int := none
  contempt : Option Int := none
  threads : Option Int := none
  hash : Option Int := none
deriving DecidableEq, Repr

/-- The mutable fields of a `ChessEngine` instance.  `gameFen` models the
state of the inherited chess.js board as its FEN string (the controller only
ever reads it through `this.fen()`); `stockfish` is the worker handle,
`some ()` when a worker exists. -/
structure EngineState where
  gameFen : String
  stockfish : Option Unit
  stockfishWorkerUrl : Option String
  isuciok : Bool
  mode : EngineMode
  analysisLines : List (Option AnalysisLine)
  lines : List AnalysisLine
deriving DecidableEq, Repr

/-- Observable effects of the controller: messages posted to the worker,
worker lifecycle operations, blob-URL revocation, `analysis` events delivered
through the emitter, and console warnings. -/
inductive Effect
  | send (cmd : String)
  | createWorker (url : String)
  | workerTerminated
  | revokeUrl (u : String)
  | emitAnalysis (ls : List AnalysisLine)
  | warn (msg : String)
deriving DecidableEq, Repr

/-- Interface of the external rules engine (chess.js, a dependency of this
repository, not part of its sources).  `new fen` is `new Chess(fen)`;
`move b m` is `b.move(m)`: `some (san, b')` when the move is accepted
(returning its SAN text and the mutated board), `none` when chess.js throws
because the move is illegal or unparseable. -/
structure Rules (B : Type) where
  new : String → B
  move : B → String → Option (String × B)

/-! ### Accumulated-lines store

JS sparse-array operations used on `this.analysisLines`: index assignment
(`this.analysisLines[pvIndex] = …`, which pads with holes when the index is
beyond the current length) and `.filter(Boolean)` (which skips holes; the
stored objects themselves are always truthy). -/

/-- JS `arr[i] = v` on an array of possibly-holey slots: pad with holes up to
index `i`, then store. -/
def setSlot {α : Type} (st : List (Option α)) (i : Nat) (v : α) : List (Option α) :=
  (st ++ List.replicate (i + 1 - st.length) none).set i (some v)

/-- JS `arr[idx] = v` where `idx` may be negative (`parseInt(rank) - 1`):
a negative index sets an object property, leaving the array contents — and
everything the controller ever reads from them — unchanged. -/
def setSlotInt {α : Type} (st : List (Option α)) (i : Int) (v : α) : List (Option α) :=
  if i < 0 then st else setSlot st i.toNat v

/-- `arr.filter(Boolean)` on the accumulated lines: the gap-free snapshot
exposed to callers. -/
def snapshot (st : List (Option AnalysisLine)) : List AnalysisLine :=
  st.filterMap id

/-- State of the store after a sequence of rank updates `(rank, line)`,
each applied exactly as the message handler applies it
(`this.analysisLines[rank - 1] = line`). -/
def applyUpdates (us : List (Nat × AnalysisLine)) : List (Option AnalysisLine) :=
  us.foldl (fun st u => setSlot st (u.1 - 1) u.2) []

/-- The last line reported for rank `r` in the update sequence `us`. -/
def latest (us : List (Nat × AnalysisLine)) (r : Nat) : Option AnalysisLine :=
  ((us.filter (fun p => p.1 == r)).map Prod.snd).getLast?

/-! ### The controller's methods, as state → state × effects functions -/

/-- `this._sendCommand(cmd)`: posts to the worker only when one exists. -/
def sendCommand (st : EngineState) (cmd : String) : List Effect :=
  if st.stockfish.isSome then [Effect.send cmd] else []

/-- One conditional send of `this._setOptions`: JS `if (options.x)` is a
truthiness test, so a field that is absent or `0` sends nothing. -/
def jsOptEffect (st : EngineState) (name : String) (x : Option Int) : List Effect :=
  match x with
  | some v => if v = 0 then [] else sendCommand st ("setoption name " ++ name ++ " value " ++ toString v)
  | none => []

/-- `this._setOptions(options)`: five conditional sends in fixed order. -/
def setOptionsEffects (st : EngineState) (o : StockfishOptions) : List Effect :=
  jsOptEffect st "MultiPV" o.multiPV ++
  jsOptEffect st "Skill Level" o.skillLevel ++
  jsOptEffect st "Contempt" o.contempt ++
  jsOptEffect st "Threads" o.threads ++
  jsOptEffect st "Hash" o.hash

/-- `this.fen().split(" ")[1]` — the side-to-move field of the FEN
(the empty string standing in for JS `undefined` when the FEN has no second
field; like `undefined`, it then compares unequal to both `"w"` and `"b"`). -/
def fenSide (fen : String) : String :=
  String.mk ((jsSplitChar ' ' fen.toList).getD 1 [])

/-- The evaluation stored for a parsed info line: centipawn scores are
divided by 100 and negated when Black is to move; mate distances become a
tagged string whose sign is resolved against the side to move. -/
def adjustEval (evalType : List Char) (evalValue : Int) (sideToMove : String) : EvalValue :=
  if evalType = "cp".toList then
    if sideToMove = "b" then EvalValue.num (-(evalValue : ℚ) / 100)
    else EvalValue.num ((evalValue : ℚ) / 100)
  else
    if (evalValue > 0 ∧ sideToMove = "w") ∨ (evalValue < 0 ∧ sideToMove = "b")
    then EvalValue.str ("M" ++ toString evalValue.natAbs)
    else EvalValue.str ("M-" ++ toString evalValue.natAbs)

/-- Loop body of `convertMovesToSAN`: apply each move to the scratch board,
collecting SAN texts, and stop at the first move on which chess.js throws. -/
def convertGo {B : Type} (R : Rules B) (b : B) : List String → List String
  | [] => []
  | m :: ms =>
    match R.move b m with
    | some (san, b2) => san :: convertGo R b2 ms
    | none => []

/-- `convertMovesToSAN(moves, position)`: translation happens on a freshly
constructed board loaded from `position`. -/
def convertMovesToSAN {B : Type} (R : Rules B) (moves : List String) (position : String) : List String :=
  convertGo R (R.new position) moves

/-- `convertMovesToSAN` as the instance method it is in the source: the body
never reads or writes `this`, so the engine state passes through untouched. -/
def convertMovesToSANMethod {B : Type} (R : Rules B) (st : EngineState)
    (moves : List String) (position : String) : List String × EngineState :=
  (convertMovesToSAN R moves position, st)

/-- `this.terminate()`: quit + release the worker if one exists, revoke and
clear the blob URL if one was created, clear the ready flag, reset the mode. -/
def terminate (st : EngineState) : EngineState × List Effect :=
  let p1 : EngineState × List Effect :=
    match st.stockfish with
    | some _ => ({ st with stockfish := none }, sendCommand st "quit" ++ [Effect.workerTerminated])
    | none => (st, [])
  let p2 : EngineState × List Effect :=
    match p1.1.stockfishWorkerUrl with
    | some u =>
      if jsStartsWith u "blob:" then ({ p1.1 with stockfishWorkerUrl := none }, [Effect.revokeUrl u])
      else (p1.1, [])
    | none => (p1.1, [])
  ({ p2.1 with isuciok := false, mode := EngineMode.idle }, p1.2 ++ p2.2)

/-- `this._handleStockfishMessage(message, options)`: the class-level
listener — handshake completion, stream-mode teardown on `bestmove`, and the
ranked-info parse that accumulates analysis lines and publishes snapshots. -/
def handleStockfishMessage {B : Type} (R : Rules B) (o : StockfishOptions)
    (st : EngineState) (msg : String) : EngineState × List Effect :=
  if msg = "uciok" then
    ({ st with isuciok := true }, setOptionsEffects st o)
  else if jsStartsWith msg "bestmove" then
    if st.mode = EngineMode.stream then terminate st else (st, [])
  else
    let sideToMove := fenSide st.gameFen
    match matchInfo msg with
    | none => (st, [])
    | some (g1, g2, g3, g4) =>
      let pvIndex : Int := parseIntJs g1 - 1
      let evalValue : Int := parseIntJs g3
      let pvLine : List (List Char) := jsSplitWs (trimWs g4)
      if pvLine.length > 0 then
        let sanLine := convertMovesToSAN R (pvLine.map (fun cs => String.mk cs)) st.gameFen
        let newLines := setSlotInt st.analysisLines pvIndex
          { evaluation := adjustEval g2 evalValue sideToMove, line := sanLine }
        ({ st with analysisLines := newLines }, [Effect.emitAnalysis (snapshot newLines)])
      else (st, [])

/-- `this._initializeWorker(options)`: reuse an existing worker, otherwise
pick the worker URL (custom, cached, or a fresh blob URL — the blob URL
produced by `URL.createObjectURL` is modelled by a fixed `blob:` string),
create the worker, clear the ready flag and send the handshake. -/
def initializeWorker (o : StockfishOptions) (st : EngineState) : EngineState × List Effect :=
  if st.stockfish.isSome then (st, [])
  else
    let urlSt :=
      match o.stockfishUrl with
      | some u => { st with stockfishWorkerUrl := some u }
      | none =>
        if st.stockfishWorkerUrl.isSome then st
        else { st with stockfishWorkerUrl := some "blob:createObjectURL" }
    let st2 := { urlSt with stockfish := some (), isuciok := false }
    (st2, [Effect.createWorker (urlSt.stockfishWorkerUrl.getD "")] ++ sendCommand st2 "uci")

/-- The `go` directive built by `evaluatePosition`'s ready poll: strict
priority depth > time > movetime > nodes, else the default `go depth 15`.
The tests are `!== undefined`, i.e. presence, not truthiness. -/
def goCommand (o : StockfishOptions) : String :=
  match o.depth with
  | some d => "go depth " ++ toString d
  | none =>
    match o.time with
    | some t => "go wtime " ++ toString t ++ " btime " ++ toString t
    | none =>
      match o.movetime with
      | some m => "go movetime " ++ toString m
      | none =>
        match o.nodes with
        | some n => "go nodes " ++ toString n
        | none => "go depth 15"

/-- One round of `evaluatePosition`'s `checkUciOk` poll: once the ready flag
is up, send the position load followed by the chosen search directive;
otherwise schedule a retry (no effect now). -/
def checkUciOkEval (o : StockfishOptions) (st : EngineState) : List Effect :=
  if st.isuciok then
    sendCommand st ("position fen " ++ st.gameFen) ++ sendCommand st (goCommand o)
  else []

/-- One round of `startAnalysis`'s `checkUciOk` poll (`go infinite`). -/
def checkUciOkStream (st : EngineState) : List Effect :=
  if st.isuciok then
    sendCommand st ("position fen " ++ st.gameFen) ++ sendCommand st "go infinite"
  else []

/-- Outcome of calling `evaluatePosition`: an immediate rejection, or a
pending promise. -/
inductive EvalStartOutcome
  | rejected (msg : String)
  | pending
deriving DecidableEq, Repr

/-- The synchronous part of `evaluatePosition(options)`: the busy check,
then mode transition, worker initialization, accumulator reset and the first
`checkUciOk` round. -/
def evaluatePositionStart (o : StockfishOptions) (st : EngineState) :
    EngineState × List Effect × EvalStartOutcome :=
  if st.mode ≠ EngineMode.idle then
    (st, [], EvalStartOutcome.rejected "Engine is busy. Please stop the current analysis first.")
  else
    let st1 := { st with mode := EngineMode.evaluate }
    let p := initializeWorker o st1
    let st3 := { p.1 with analysisLines := [] }
    (st3, p.2 ++ checkUciOkEval o st3, EvalStartOutcome.pending)

/-- `startAnalysis(options)`: on busy, a console warning and a plain return
(no throw, no state change); otherwise the streaming analogue of the above. -/
def startAnalysisCall (o : StockfishOptions) (st : EngineState) : EngineState × List Effect :=
  if st.mode ≠ EngineMode.idle then
    (st, [Effect.warn "Engine is busy. Please stop the current analysis first."])
  else
    let st1 := { st with mode := EngineMode.stream }
    let p := initializeWorker o st1
    let st3 := { p.1 with analysisLines := [] }
    (st3, p.2 ++ checkUciOkStream st3)

/-- `options.movetime || 30000`: the timeout duration (`||` is a truthiness
choice, so `movetime: 0` also falls back to the 30000 ms default). -/
def evalTimeoutMs (o : StockfishOptions) : Int :=
  match o.movetime with
  | some m => if m = 0 then 30000 else m
  | none => 30000

/-- The timeout callback of `evaluatePosition`: tear the session down, warn,
and resolve the promise — with the empty array literal `[]`, regardless of
what had been accumulated.  The third component is the value the promise
resolves with. -/
def evalTimeout (t : Int) (st : EngineState) : EngineState × List Effect × List AnalysisLine :=
  let p := terminate st
  (p.1, p.2 ++ [Effect.warn ("Stockfish evaluation timed out after " ++ toString t ++ "ms, returning empty analysis.")], [])

/-- The `bestmove` branch of `evaluatePosition`'s promise-local message
listener: snapshot the accumulated lines, publish them on `this.lines`, tear
down, and resolve with the snapshot. -/
def evalBestmoveResolve (st : EngineState) : EngineState × List Effect × List AnalysisLine :=
  let fin := snapshot st.analysisLines
  let p := terminate { st with lines := fin }
  (p.1, p.2, fin)

/-! ### Concrete fixtures for witnesses and counterexamples -/

/-- The standard starting position. -/
def startFen : String := "rnbqkbnr/pppppppp/8/8/8/8/PPPPPPPP/RNBQKBNR w KQkq - 0 1"

/-- Modelled from the spec: a concrete instance of the external rules-engine
interface (chess.js is a dependency, absent from this repository's sources).
Boards are ply counters from the starting position; the engine accepts
`e2e4` as the first ply (SAN `e4`) and `g1f3` as a second ply (SAN `Nf3`)
and rejects everything else — enough to realise the spec's example
`[e2e4, bogus, g1f3] ↦ [e4]`. -/
def mockRules : Rules Nat where
  new := fun _ => 0
  move := fun b m =>
    if b = 0 && m = "e2e4" then some ("e4", 1)
    else if b = 1 && m = "g1f3" then some ("Nf3", 2)
    else none

/-- A session state mid-evaluation: worker live, handshake done, nothing
accumulated yet. -/
def readyEvalState : EngineState :=
  { gameFen := startFen
    stockfish := some ()
    stockfishWorkerUrl := some "blob:createObjectURL"
    isuciok := true
    mode := EngineMode.evaluate
    analysisLines := []
    lines := [] }

/-! ### Spec-side characterizations used by the theorems -/

/-- Specification-side reading of one search-limiter: apply all of `moves`
starting from board `b`, returning the SAN texts and the final board iff the
rules engine accepts every move. -/
def playAll {B : Type} (R : Rules B) (b : B) : List String → Option (List String × B)
  | [] => some ([], b)
  | m :: ms =>
    match R.move b m with
    | none => none
    | some (san, b2) => (playAll R b2 ms).map (fun p => (san :: p.1, p.2))

/-- Specification-side reading of one configuration slot: the command a
tuning parameter contributes, `none` when the field is absent or `0`
(JS-falsy). -/
def optCmdChoice (name : String) (x : Option Int) : Option String :=
  match x with
  | some v => if v = 0 then none else some ("setoption name " ++ name ++ " value " ++ toString v)
  | none => none

/-- Specification-side configuration command list: five slots in the fixed
order rank-count, skill, contempt, threads, memory; empty slots vanish. -/
def specSetOptionCmds (o : StockfishOptions) : List String :=
  [optCmdChoice "MultiPV" o.multiPV, optCmdChoice "Skill Level" o.skillLevel,
   optCmdChoice "Contempt" o.contempt, optCmdChoice "Threads" o.threads,
   optCmdChoice "Hash" o.hash].filterMap id

/-! ### Further concrete fixtures -/

/-- A busy controller: a streaming session is active. -/
def streamBusyState : EngineState :=
  { readyEvalState with mode := EngineMode.stream }

/-- Options whose only tuning parameter is a skill level of `0` — present,
valid per the option's documented range 0–20, but JS-falsy. -/
def skillZeroOpts : StockfishOptions := { skillLevel := some 0 }

/-- The session state after one ordinary rank-1 info line has been parsed
during a one-shot evaluation. -/
def accumState : EngineState :=
  (handleStockfishMessage mockRules {} readyEvalState
    "info depth 15 multipv 1 score cp 13 pv e2e4").1

/-- Two analysis lines for exercising the store. -/
def lineRank1 : AnalysisLine := { evaluation := EvalValue.num 1, line := ["a"] }

def lineRank2 : AnalysisLine := { evaluation := EvalValue.str "M1", line := ["b"] }

/-- An update sequence that reports rank 2 before rank 1. -/
def outOfOrderUpdates : List (Nat × AnalysisLine) := [(2, lineRank2), (1, lineRank1)]

/-! ### Helper lemmas -/

/-- `filter(Boolean)` enumerates the defined slots in index order. -/
theorem filterMap_id_eq_range {α : Type} (st : List (Option α)) :
    st.filterMap id = (List.range st.length).filterMap (fun i => st.getD i none) := by
  induction st with
  | nil => simp
  | cons a t ih =>
    rw [List.length_cons, List.range_succ_eq_map, List.filterMap_cons, List.filterMap_cons,
      List.filterMap_map]
    have hc : ((fun i => (a :: t).getD i none) ∘ Nat.succ) = fun i => t.getD i none := by
      funext i
      simp [Function.comp, List.getD_cons_succ]
    rw [hc, ← ih]
    cases a <;> simp [List.getD_cons_zero]

theorem setSlot_length {α : Type} (st : List (Option α)) (i : Nat) (v : α) :
    (setSlot st i v).length = max st.length (i + 1) := by
  simp only [setSlot, List.length_set, List.length_append, List.length_replicate]
  omega

theorem setSlot_getD {α : Type} (st : List (Option α)) (j : Nat) (v : α) (i : Nat) :
    (setSlot st j v).getD i none = if i = j then some v else st.getD i none := by
  rw [List.getD_eq_getElem?_getD, List.getD_eq_getElem?_getD]
  unfold setSlot
  rw [List.getElem?_set]
  by_cases hji : j = i
  · subst hji
    have hlen : j < st.length + (j + 1 - st.length) := by omega
    simp [List.length_append, List.length_replicate, hlen]
  · rw [if_neg hji, if_neg (fun h => hji h.symm)]
    rw [List.getElem?_append]
    by_cases hi : i < st.length
    · simp [hi]
    · rw [if_neg hi, List.getElem?_replicate]
      have hst : st[i]? = none := List.getElem?_eq_none (by omega)
      rw [hst]
      split <;> simp

theorem applyUpdates_append (us : List (Nat × AnalysisLine)) (p : Nat × AnalysisLine) :
    applyUpdates (us ++ [p]) = setSlot (applyUpdates us) (p.1 - 1) p.2 := by
  simp [applyUpdates, List.foldl_append]

theorem latest_append (us : List (Nat × AnalysisLine)) (p : Nat × AnalysisLine) (r : Nat) :
    latest (us ++ [p]) r = if p.1 = r then some p.2 else latest us r := by
  unfold latest
  rw [List.filter_append, List.map_append]
  by_cases hp : p.1 = r
  · rw [if_pos hp]
    have hb : (p.1 == r) = true := beq_iff_eq.mpr hp
    have hf : List.filter (fun q => q.1 == r) [p] = [p] := by
      simp [List.filter, hb]
    rw [hf]
    simp [List.getLast?_concat]
  · rw [if_neg hp]
    have hb : (p.1 == r) = false := beq_eq_false_iff_ne.mpr hp
    have hf : List.filter (fun q => q.1 == r) [p] = [] := by
      simp [List.filter, hb]
    rw [hf]
    simp

theorem applyUpdates_getD (us : List (Nat × AnalysisLine)) (i : Nat) :
    (∀ p ∈ us, 1 ≤ p.1) →
    (applyUpdates us).getD i none = latest us (i + 1) := by
  induction us using List.reverseRecOn with
  | nil => intro _; simp [applyUpdates, latest]
  | append_singleton us p ih =>
    intro h
    have hp1 : 1 ≤ p.1 := h p (by simp)
    have hus : ∀ q ∈ us, 1 ≤ q.1 := fun q hq => h q (by simp [hq])
    rw [applyUpdates_append, setSlot_getD, latest_append]
    by_cases hr : p.1 = i + 1
    · rw [if_pos hr, if_pos (by omega)]
    · rw [if_neg hr, if_neg (by omega), ih hus]

theorem applyUpdates_rank_le_length (us : List (Nat × AnalysisLine)) :
    (∀ p ∈ us, 1 ≤ p.1) →
    ∀ p ∈ us, p.1 ≤ (applyUpdates us).length := by
  induction us using List.reverseRecOn with
  | nil => intro _ p hp; simp at hp
  | append_singleton us q ih =>
    intro h p hp
    have hq1 : 1 ≤ q.1 := h q (by simp)
    have hus : ∀ r ∈ us, 1 ≤ r.1 := fun r hr => h r (by simp [hr])
    rw [applyUpdates_append, setSlot_length]
    rcases List.mem_append.mp hp with h1 | h2
    · have := ih hus p h1
      omega
    · have hpq : p = q := by simpa using h2
      subst hpq
      omega

/-- Teardown always clears the worker handle, the ready flag and the mode. -/
theorem terminate_state_flags (st : EngineState) :
    (terminate st).1.stockfish = none ∧
    (terminate st).1.isuciok = false ∧
    (terminate st).1.mode = EngineMode.idle := by
  unfold terminate
  rcases hsf : st.stockfish with _ | u <;>
    simp only [] <;>
    rcases hurl : st.stockfishWorkerUrl with _ | v <;>
    simp [hsf, hurl] <;>
    split <;> simp [hsf, hurl]

/-- Teardown never touches the inherited game state. -/
theorem terminate_gameFen (st : EngineState) :
    (terminate st).1.gameFen = st.gameFen := by
  unfold terminate
  rcases hsf : st.stockfish with _ | u <;>
    simp only [] <;>
    rcases hurl : st.stockfishWorkerUrl with _ | v <;>
    simp [hsf, hurl] <;>
    split <;> simp

/-- The translation loop realises the longest accepted prefix, from any
starting board. -/
theorem convertGo_spec {B : Type} (R : Rules B) (moves : List String) :
    ∀ b : B, ∃ k sans b2,
      k ≤ moves.length ∧
      playAll R b (moves.take k) = some (sans, b2) ∧
      convertGo R b moves = sans ∧
      (k < moves.length → R.move b2 (moves.getD k "") = none) := by
  induction moves with
  | nil =>
    intro b
    exact ⟨0, [], b, by simp, by simp [playAll], by simp [convertGo], by simp⟩
  | cons m ms ih =>
    intro b
    rcases hmv : R.move b m with _ | ⟨san, b1⟩
    · refine ⟨0, [], b, by simp, by simp [playAll], ?_, ?_⟩
      · simp [convertGo, hmv]
      · intro _
        simpa using hmv
    · rcases ih b1 with ⟨k, sans, b2, hk, hplay, hconv, hnext⟩
      refine ⟨k + 1, san :: sans, b2, by simpa using hk, ?_, ?_, ?_⟩
      · simp [List.take, playAll, hmv, hplay]
      · simp [convertGo, hmv, hconv]
      · intro hlt
        rw [List.length_cons] at hlt
        have := hnext (by omega)
        simpa using this

/-! ### Claim theorems -/

/-- C1 (amended).  When the configured timeout of a one-shot
`evaluatePosition` session fires, the promise resolves — it neither rejects
nor hangs (the callback unconditionally produces a resolution value) — with
the empty list, discarding any accumulated analysis lines, and the session is
torn down: worker handle released, ready flag cleared, mode back to idle. -/
theorem c1_timeout_resolves_empty (o : StockfishOptions) (st : EngineState) :
    (evalTimeout (evalTimeoutMs o) st).2.2 = [] ∧
    (evalTimeout (evalTimeoutMs o) st).1.stockfish = none ∧
    (evalTimeout (evalTimeoutMs o) st).1.isuciok = false ∧
    (evalTimeout (evalTimeoutMs o) st).1.mode = EngineMode.idle := by
  refine ⟨rfl, ?_, ?_, ?_⟩
  · exact (terminate_state_flags st).1
  · exact (terminate_state_flags st).2.1
  · exact (terminate_state_flags st).2.2

/-- C1, counterexample to the claim as stated.  In a session that has already
accumulated one analysis line, the timeout path still resolves with the empty
list, not with the accumulated snapshot. -/
theorem c1_timeout_discards_accumulated :
    snapshot accumState.analysisLines =
      [{ evaluation := EvalValue.num ((13 : ℚ) / 100), line := ["e4"] }] ∧
    (evalTimeout 30000 accumState).2.2 = [] ∧
    (evalTimeout 30000 accumState).2.2 ≠ snapshot accumState.analysisLines := by
  refine ⟨rfl, rfl, ?_⟩
  intro h
  exact nomatch h

/-- C2.  Once the ready flag is up (and only then), the poll sends exactly
one position-load command carrying the current FEN followed by exactly one
`go` directive, chosen by the strict priority
depth > time > movetime > nodes > default `go depth 15`. -/
theorem c2_search_command_selection (o : StockfishOptions) (st : EngineState) :
    (st.isuciok = false → checkUciOkEval o st = []) ∧
    (st.isuciok = true → st.stockfish.isSome = true →
      checkUciOkEval o st =
        [Effect.send ("position fen " ++ st.gameFen), Effect.send (goCommand o)]) ∧
    (∀ d, o.depth = some d → goCommand o = "go depth " ++ toString d) ∧
    (o.depth = none → ∀ t, o.time = some t →
      goCommand o = "go wtime " ++ toString t ++ " btime " ++ toString t) ∧
    (o.depth = none → o.time = none → ∀ m, o.movetime = some m →
      goCommand o = "go movetime " ++ toString m) ∧
    (o.depth = none → o.time = none → o.movetime = none → ∀ n, o.nodes = some n →
      goCommand o = "go nodes " ++ toString n) ∧
    (o.depth = none → o.time = none → o.movetime = none → o.nodes = none →
      goCommand o = "go depth 15") := by
  refine ⟨?_, ?_, ?_, ?_, ?_, ?_, ?_⟩
  · intro h
    simp [checkUciOkEval, h]
  · intro h1 h2
    simp [checkUciOkEval, sendCommand, h1, h2]
  · intro d hd
    simp [goCommand, hd]
  · intro hd t ht
    simp [goCommand, hd, ht]
  · intro hd ht m hm
    simp [goCommand, hd, ht, hm]
  · intro hd ht hm n hn
    simp [goCommand, hd, ht, hm, hn]
  · intro hd ht hm hn
    simp [goCommand, hd, ht, hm, hn]

/-- C2 witness at a concrete ready session with `depth := 10`. -/
theorem c2_search_command_selection_witness :
    (readyEvalState.isuciok = true ∧ readyEvalState.stockfish.isSome = true) ∧
    checkUciOkEval { depth := some 10 } readyEvalState =
      [Effect.send ("position fen " ++ readyEvalState.gameFen),
       Effect.send (goCommand { depth := some 10 })] :=
  ⟨⟨rfl, rfl⟩, (c2_search_command_selection { depth := some 10 } readyEvalState).2.1 rfl rfl⟩

/-- C3.  The stored evaluation for a parsed rank update: centipawn scores
become `v / 100` with White to move and `-v / 100` with Black to move; mate
distances become the string tag `"M" ++ |v|` exactly when (`v > 0` and White
to move) or (`v < 0` and Black to move), and `"M-" ++ |v|` in every other
combination; a mate score is never stored as a number. -/
theorem c3_eval_normalization (v : Int) (s : String) (hs : s = "w" ∨ s = "b") :
    (s = "w" → adjustEval "cp".toList v s = EvalValue.num ((v : ℚ) / 100)) ∧
    (s = "b" → adjustEval "cp".toList v s = EvalValue.num (-(v : ℚ) / 100)) ∧
    ((v > 0 ∧ s = "w") ∨ (v < 0 ∧ s = "b") →
      adjustEval "mate".toList v s = EvalValue.str ("M" ++ toString v.natAbs)) ∧
    (¬((v > 0 ∧ s = "w") ∨ (v < 0 ∧ s = "b")) →
      adjustEval "mate".toList v s = EvalValue.str ("M-" ++ toString v.natAbs)) ∧
    (∀ q : ℚ, adjustEval "mate".toList v s ≠ EvalValue.num q) := by
  have hmate : ("mate".toList = "cp".toList) = False := by simp
  refine ⟨?_, ?_, ?_, ?_, ?_⟩
  · intro hw
    subst hw
    simp [adjustEval]
  · intro hb
    subst hb
    simp [adjustEval]
  · intro hcond
    simp [adjustEval, hmate, hcond]
  · intro hcond
    simp [adjustEval, hmate, hcond]
  · intro q
    simp only [adjustEval, hmate, if_false]
    split <;> simp

/-- C3 witness: `cp 13` with Black to move is `-13/100`; `mate 3` with White
to move is the tag `"M" ++ 3`. -/
theorem c3_eval_normalization_witness :
    (("b" : String) = "w" ∨ ("b" : String) = "b") ∧
    adjustEval "cp".toList 13 "b" = EvalValue.num (-(13 : ℚ) / 100) ∧
    adjustEval "mate".toList 3 "w" = EvalValue.str ("M" ++ toString (3 : Int).natAbs) :=
  ⟨Or.inr rfl,
   (c3_eval_normalization 13 "b" (Or.inr rfl)).2.1 rfl,
   (c3_eval_normalization 3 "w" (Or.inl rfl)).2.2.1 (Or.inl ⟨by decide, rfl⟩)⟩

/-- C4.  After any sequence of rank updates whose ranks are positive (as the
1-based `multipv` ranks are), the snapshot exposed to callers — emitted on
every `analysis` event and, via `evalBestmoveResolve`, the value the one-shot
promise resolves with — lists, in ascending rank order, exactly the most
recently stored line of every rank reported so far; unreported ranks are
absent rather than present as holes, and every reported rank lies within the
enumerated range. -/
theorem c4_snapshot_sorted_no_gaps (us : List (Nat × AnalysisLine))
    (h : ∀ p ∈ us, 1 ≤ p.1) :
    snapshot (applyUpdates us) =
      (List.range (applyUpdates us).length).filterMap (fun i => latest us (i + 1)) ∧
    (∀ p ∈ us, p.1 ≤ (applyUpdates us).length) ∧
    (∀ st : EngineState, (evalBestmoveResolve st).2.2 = snapshot st.analysisLines) := by
  refine ⟨?_, applyUpdates_rank_le_length us h, fun st => rfl⟩
  rw [snapshot, filterMap_id_eq_range]
  have hfun : (fun i => (applyUpdates us).getD i none) = fun i => latest us (i + 1) :=
    funext (fun i => applyUpdates_getD us i h)
  rw [hfun]

/-- C4 witness: ranks arriving out of order (2 before 1) still snapshot in
ascending rank order, with the evaluated result spelled out. -/
theorem c4_snapshot_sorted_no_gaps_witness :
    (∀ p ∈ outOfOrderUpdates, 1 ≤ p.1) ∧
    snapshot (applyUpdates outOfOrderUpdates) =
      (List.range (applyUpdates outOfOrderUpdates).length).filterMap
        (fun i => latest outOfOrderUpdates (i + 1)) ∧
    snapshot (applyUpdates outOfOrderUpdates) = [lineRank1, lineRank2] :=
  ⟨by decide,
   (c4_snapshot_sorted_no_gaps outOfOrderUpdates (by decide)).1,
   rfl⟩

/-- C5.  `convertMovesToSAN` returns the SAN translations of the longest
prefix of the move list that the rules engine accepts in order from the
given position: some `k` moves are all accepted (with the collected SAN
texts equal to the result) and, if the list was not exhausted, move `k` is
rejected.  The call never throws — it is total and returns the prefix.  The
second conjunct realises the spec's example `[e2e4, bogus, g1f3] ↦ [e4]` on
a concrete rules-engine instance. -/
theorem c5_san_longest_prefix :
    (∀ (B : Type) (R : Rules B) (position : String) (moves : List String),
      ∃ k sans b2,
        k ≤ moves.length ∧
        playAll R (R.new position) (moves.take k) = some (sans, b2) ∧
        convertMovesToSAN R moves position = sans ∧
        (k < moves.length → R.move b2 (moves.getD k "") = none)) ∧
    convertMovesToSAN mockRules ["e2e4", "bogus", "g1f3"] startFen = ["e4"] := by
  constructor
  · intro B R position moves
    exact convertGo_spec R moves (R.new position)
  · rfl

/-- C6.  While a session is active (mode ≠ idle), `evaluatePosition` rejects
immediately with the busy error, leaving the state untouched and producing
no effect at all — no worker construction, no command; `startAnalysis` in the
same situation only emits the busy warning, returning normally with the state
untouched.  On an idle controller with no worker, the one-shot start
constructs exactly one worker. -/
theorem c6_busy_asymmetry (o : StockfishOptions) (st : EngineState) :
    (st.mode ≠ EngineMode.idle →
      evaluatePositionStart o st =
        (st, [], EvalStartOutcome.rejected
          "Engine is busy. Please stop the current analysis first.") ∧
      startAnalysisCall o st =
        (st, [Effect.warn "Engine is busy. Please stop the current analysis first."])) ∧
    (st.mode = EngineMode.idle → st.stockfish = none →
      (evaluatePositionStart o st).2.1.countP
        (fun e => match e with | Effect.createWorker _ => true | _ => false) = 1) := by
  constructor
  · intro h
    constructor
    · simp [evaluatePositionStart, h]
    · simp [startAnalysisCall, h]
  · intro hmode hsf
    simp only [evaluatePositionStart, hmode, ne_eq, not_true_eq_false, if_false,
      initializeWorker, hsf, Option.isSome_none, Bool.false_eq_true, if_false]
    rcases o.stockfishUrl with _ | u
    · rcases hurl : st.stockfishWorkerUrl with _ | v <;>
        simp only [checkUciOkEval, hurl, Option.isSome_some, Option.isSome_none,
          Bool.false_eq_true, if_false, List.append_nil] <;>
        rfl
    · simp only [checkUciOkEval, Option.isSome_some, Bool.false_eq_true, if_false,
        List.append_nil]
      rfl

/-- C6 witness at a concrete streaming-busy controller. -/
theorem c6_busy_asymmetry_witness :
    (streamBusyState.mode ≠ EngineMode.idle) ∧
    evaluatePositionStart {} streamBusyState =
      (streamBusyState, [], EvalStartOutcome.rejected
        "Engine is busy. Please stop the current analysis first.") ∧
    startAnalysisCall {} streamBusyState =
      (streamBusyState,
       [Effect.warn "Engine is busy. Please stop the current analysis first."]) := by
  refine ⟨by decide, ?_⟩
  have h := (c6_busy_asymmetry {} streamBusyState).1 (by decide)
  exact ⟨h.1, h.2⟩

/-- C7 (refuting the claim; the guard is the bug).  The engine line
`"info multipv 1 score cp 13 pv  "` (two trailing blanks) matches the
ranked-info pattern with a whitespace-only pv group, whose move sequence is
empty after trimming — yet the handler does produce a rank-update: because
`"".split(/\s+/)` is `[""]`, the `pvLine.length > 0` guard passes, a line
slot with an empty translated move list is written, and an `analysis` event
is published. -/
theorem c7_empty_pv_still_emits :
    (matchInfo "info multipv 1 score cp 13 pv  ").map (fun g => trimWs g.2.2.2) =
      some [] ∧
    (handleStockfishMessage mockRules {} readyEvalState
        "info multipv 1 score cp 13 pv  ").2 =
      [Effect.emitAnalysis [{ evaluation := EvalValue.num ((13 : ℚ) / 100), line := [] }]] ∧
    (handleStockfishMessage mockRules {} readyEvalState
        "info multipv 1 score cp 13 pv  ").1.analysisLines =
      [some { evaluation := EvalValue.num ((13 : ℚ) / 100), line := [] }] :=
  ⟨rfl, rfl, rfl⟩

/-- C8, counterexample to the claim as stated.  A skill level of `0` is
present in the options (and valid per the documented 0–20 range), yet the
configuration phase sends no `setoption` command at all: the sends are
guarded by JS truthiness, not presence. -/
theorem c8_zero_skill_sends_nothing :
    skillZeroOpts.skillLevel.isSome = true ∧
    (handleStockfishMessage mockRules skillZeroOpts readyEvalState "uciok").2 = [] :=
  ⟨rfl, rfl⟩

/-- C8 (amended).  On receipt of `uciok` the ready flag is set and exactly
one `setoption` command is sent for each tuning parameter that is present
with a nonzero (JS-truthy) value — none for parameters that are absent or
zero — always in the fixed order rank-count (MultiPV), skill, contempt,
threads, memory, as exhibited by the five-slot list `specSetOptionCmds`. -/
theorem c8_setoption_truthy_order (B : Type) (R : Rules B) (o : StockfishOptions)
    (st : EngineState) (h : st.stockfish.isSome = true) :
    handleStockfishMessage R o st "uciok" =
      ({ st with isuciok := true }, (specSetOptionCmds o).map Effect.send) := by
  have hopt : ∀ (name : String) (x : Option Int),
      jsOptEffect st name x = ((optCmdChoice name x).toList).map Effect.send := by
    intro name x
    rcases x with _ | v
    · simp [jsOptEffect, optCmdChoice]
    · by_cases hv : v = 0 <;> simp [jsOptEffect, optCmdChoice, hv, sendCommand, h]
  have hcons : ∀ (x : Option String) (l : List (Option String)),
      (x :: l).filterMap id = x.toList ++ l.filterMap id := by
    intro x l
    rcases x with _ | s <;> simp
  simp [handleStockfishMessage, setOptionsEffects, hopt, specSetOptionCmds, hcons,
    List.append_assoc]

/-- C8 witness: with MultiPV 3 and threads 4 present, exactly those two
commands are sent, in the fixed order. -/
theorem c8_setoption_truthy_order_witness :
    readyEvalState.stockfish.isSome = true ∧
    handleStockfishMessage mockRules { multiPV := some 3, threads := some 4 }
        readyEvalState "uciok" =
      ({ readyEvalState with isuciok := true },
       (specSetOptionCmds { multiPV := some 3, threads := some 4 }).map Effect.send) ∧
    (specSetOptionCmds { multiPV := some 3, threads := some 4 }).map Effect.send =
      [Effect.send "setoption name MultiPV value 3",
       Effect.send "setoption name Threads value 4"] :=
  ⟨rfl,
   c8_setoption_truthy_order Nat mockRules { multiPV := some 3, threads := some 4 }
     readyEvalState rfl,
   rfl⟩

/-- C9.  From every controller state, `terminate` sends the quit directive
exactly when a worker handle exists, and leaves the worker handle cleared,
the ready flag down, the mode idle, and a transient blob load-URL revoked
and cleared; a second `terminate` from the resulting state sends nothing,
releases nothing, and leaves the state unchanged. -/
theorem c9_terminate_idempotent (st : EngineState) :
    (terminate st).1.stockfish = none ∧
    (terminate st).1.isuciok = false ∧
    (terminate st).1.mode = EngineMode.idle ∧
    (Effect.send "quit" ∈ (terminate st).2 ↔ st.stockfish.isSome = true) ∧
    (∀ u, st.stockfishWorkerUrl = some u → jsStartsWith u "blob:" = true →
      (terminate st).1.stockfishWorkerUrl = none ∧
      Effect.revokeUrl u ∈ (terminate st).2) ∧
    terminate (terminate st).1 = ((terminate st).1, []) := by
  obtain ⟨fen, sf, url, uci, mode, al, ls⟩ := st
  rcases sf with _ | sfu <;> rcases url with _ | u
  · simp [terminate, sendCommand]
  · by_cases hb : jsStartsWith u "blob:" = true <;> simp [terminate, sendCommand, hb]
  · simp [terminate, sendCommand]
  · by_cases hb : jsStartsWith u "blob:" = true <;> simp [terminate, sendCommand, hb]

/-- C9 witness at a live session with a blob URL: quit is sent and the URL
is revoked and cleared. -/
theorem c9_terminate_idempotent_witness :
    readyEvalState.stockfishWorkerUrl = some "blob:createObjectURL" ∧
    ((terminate readyEvalState).1.stockfishWorkerUrl = none ∧
      Effect.revokeUrl "blob:createObjectURL" ∈ (terminate readyEvalState).2) ∧
    (Effect.send "quit" ∈ (terminate readyEvalState).2 ↔
      readyEvalState.stockfish.isSome = true) :=
  ⟨rfl,
   (c9_terminate_idempotent readyEvalState).2.2.2.2.1 "blob:createObjectURL" rfl rfl,
   (c9_terminate_idempotent readyEvalState).2.2.2.1⟩

/-- C10.  `convertMovesToSAN` translates on a freshly constructed board
loaded from the given position and leaves the calling engine's own state —
in particular its FEN — unchanged; and processing any engine message (the
path that invokes the translator on rank updates) never mutates the
displayed game state either. -/
theorem c10_convert_frame (B : Type) (R : Rules B) (st : EngineState)
    (moves : List String) (position : String) (o : StockfishOptions) (msg : String) :
    (convertMovesToSANMethod R st moves position).2 = st ∧
    (convertMovesToSANMethod R st moves position).2.gameFen = st.gameFen ∧
    ((handleStockfishMessage R o st msg).1).gameFen = st.gameFen := by
  refine ⟨rfl, rfl, ?_⟩
  rw [handleStockfishMessage]
  split
  · rfl
  · split
    · split
      · exact terminate_gameFen st
      · rfl
    · rcases hm : matchInfo msg with _ | ⟨g1, g2, g3, g4⟩
      · simp
      · simp only []
        split <;> rfl
